import Mathlib

/-!
# Contract Net auction core — shallow embedding

A shallow embedding of the Contract Net protocol agents of this repository
(`ContractNet/supervisor.py` and `ContractNet/machine.py`), together with
theorems about the auction state machine (winner selection, deadline cutoff,
failure accounting) and the machine's bid/award state machine.

Message payloads are decoded JSON values; durations and timestamps are
modelled as rationals.  Python attribute/key errors raised inside the MQTT
message callbacks are modelled with an explicit error type, so that the
"malformed payloads are dropped silently" behaviour can be examined exactly.
-/

namespace ContractNet

/-- Decoded JSON value, the result of a successful `json.loads`. -/
inductive Json where
  | null : Json
  | bool : Bool → Json
  | num : ℚ → Json
  | str : String → Json
  | arr : List Json → Json
  | obj : List (String × Json) → Json

/-- Python exceptions that the message handlers can raise.
`json.JSONDecodeError` is handled at the decoding layer (see `Decoded`). -/
inductive PyErr where
  | attributeError : PyErr
  | keyError : String → PyErr
  | typeError : PyErr
deriving DecidableEq

/-- The result of `json.loads(msg.payload.decode())`: either a decode
failure (`json.JSONDecodeError`) or a JSON value. -/
inductive Decoded where
  | fail : Decoded
  | json : Json → Decoded

/-- First binding of a key in a JSON object's field list (Python dict
lookup; dict keys are unique, the first match is the value). -/
def lookupField : List (String × Json) → String → Option Json
  | [], _ => none
  | (k, v) :: fs, key => if k = key then some v else lookupField fs key

/-- `data.get(key)` on an object: the field's value, or `None` when absent. -/
def fieldD (fs : List (String × Json)) (key : String) : Json :=
  (lookupField fs key).getD .null

/-- Python `data.get(key)`: `AttributeError` unless `data` is a dict. -/
def pyGet (data : Json) (key : String) : Except PyErr Json :=
  match data with
  | .obj fs => .ok (fieldD fs key)
  | _ => .error .attributeError

/-- Python `data.get(key, default)`: `AttributeError` unless `data` is a dict. -/
def pyGetD (data : Json) (key : String) (default : Json) : Except PyErr Json :=
  match data with
  | .obj fs => .ok ((lookupField fs key).getD default)
  | _ => .error .attributeError

/-- Python `data[key]`: `KeyError` when the key is absent, `TypeError`
when `data` is not a dict. -/
def pyIndex (data : Json) (key : String) : Except PyErr Json :=
  match data with
  | .obj fs =>
    match lookupField fs key with
    | some v => .ok v
    | none => .error (.keyError key)
  | _ => .error .typeError

/-- Python `j == s` for a string literal `s`: true exactly when `j` is that
string (values of other types never equal a `str`). -/
def Json.isStr (j : Json) (s : String) : Bool :=
  match j with
  | .str t => t = s
  | _ => false

/-- The field of a JSON object payload, if present. -/
def Json.field (j : Json) (key : String) : Option Json :=
  match j with
  | .obj fs => lookupField fs key
  | _ => none

/-- Python `str()` of a decoded JSON value, as interpolated into f-strings.
The string and `None` cases are exact; numeric and compound renderings are
abstracted (no property proved here depends on them). -/
def pyStrOf : Json → String
  | .str s => s
  | .null => "None"
  | .bool true => "True"
  | .bool false => "False"
  | .num _ => "<number>"
  | .arr _ => "<list>"
  | .obj _ => "<dict>"

/-- Dict lookup `capabilities.get(job_type)` / `job_type in capabilities`
for a capability table keyed by strings.  A non-string hashable key (None,
bool, number) simply misses; an unhashable key (list, dict) raises
`TypeError` as in Python. -/
def capGet (caps : List (String × ℚ)) : Json → Except PyErr (Option ℚ)
  | .str s => .ok (caps.lookup s)
  | .arr _ => .error .typeError
  | .obj _ => .error .typeError
  | _ => .ok none

/-- Topic an agent publishes to. -/
inductive Topic where
  | cfp : Topic
  | bidOf : Json → Topic
  | awardOf : String → Topic
  | rejectOf : String → Topic
  | completeOf : Json → Topic

/-- A published MQTT message: topic plus JSON payload. -/
structure PubMsg where
  topic : Topic
  payload : Json

/-! ## Machine agent (`ContractNet/machine.py`) -/

/-- State of a `Machine` agent (`Machine.__init__`).  `current_job` holds
the JSON value stored by `_handle_award` (`None` initially, hence `Json`). -/
structure MachineState where
  machine_id : String
  capabilities : List (String × ℚ)
  busy : Bool
  current_job : Json
  current_job_end : ℚ
  jobs_bid : Nat
  jobs_won : Nat
  jobs_completed : Nat
  jobs_rejected : Nat

/-- A simulated-execution start: the arguments `_handle_award` hands to the
`_execute_job` background thread. -/
structure ExecStart where
  job_id : Json
  job_type : Json
  execution_time : ℚ
  supervisor_id : Json

/-- Effect of one machine callback: new state, published messages, and
execution threads started. -/
def MachineStep := MachineState × List PubMsg × List ExecStart

/-- `Machine._send_rejection`: the rejection payload published to
`jobs/bid/<supervisor_id>`. -/
def sendRejectionMsg (st : MachineState) (sup job_id : Json) (reason : String)
    (now : ℚ) : PubMsg :=
  ⟨.bidOf sup,
   .obj [("type", .str "rejection"), ("machine_id", .str st.machine_id),
         ("job_id", job_id), ("reason", .str reason), ("timestamp", .num now)]⟩

/-- `Machine._send_bid`: publish the bid and increment `jobs_bid`. -/
def sendBidStep (st : MachineState) (sup job_id : Json) (t now : ℚ) : MachineStep :=
  ({ st with jobs_bid := st.jobs_bid + 1 },
   [⟨.bidOf sup,
     .obj [("type", .str "bid"), ("machine_id", .str st.machine_id),
           ("job_id", job_id), ("proposed_time", .num t), ("timestamp", .num now)]⟩],
   [])

/-- `Machine._handle_cfp`: reject when busy, reject when the job type is not
in the capability table, otherwise bid with the table's duration. -/
def handleCfp (st : MachineState) (data : Json) (now : ℚ) : Except PyErr MachineStep :=
  match pyGet data "job_type" with
  | .error e => .error e
  | .ok job_type =>
    match pyGet data "job_id" with
    | .error e => .error e
    | .ok job_id =>
      match pyGet data "supervisor_id" with
      | .error e => .error e
      | .ok supervisor_id =>
        if st.busy then
          .ok (st, [sendRejectionMsg st supervisor_id job_id "Machine is busy" now], [])
        else
          match capGet st.capabilities job_type with
          | .error e => .error e
          | .ok none =>
            .ok (st, [sendRejectionMsg st supervisor_id job_id
                        ("Cannot perform " ++ pyStrOf job_type) now], [])
          | .ok (some t) => .ok (sendBidStep st supervisor_id job_id t now)

/-- `Machine._handle_award`: ignore unless the award's `machine_id` equals
our own; otherwise (with no busy check and no job-id check) increment
`jobs_won`, set `busy`, record the job id, and start an execution thread
with the capability duration, defaulting to 5.0. -/
def handleAward (st : MachineState) (data : Json) : Except PyErr MachineStep :=
  match pyGet data "job_id" with
  | .error e => .error e
  | .ok job_id =>
    match pyGet data "job_type" with
    | .error e => .error e
    | .ok job_type =>
      match pyGet data "supervisor_id" with
      | .error e => .error e
      | .ok supervisor_id =>
        match pyGet data "machine_id" with
        | .error e => .error e
        | .ok awm =>
          if awm.isStr st.machine_id = false then .ok (st, [], [])
          else
            let st' := { st with jobs_won := st.jobs_won + 1, busy := true,
                                 current_job := job_id }
            match capGet st.capabilities job_type with
            | .error e => .error e
            | .ok eto =>
              .ok (st', [], [⟨job_id, job_type, eto.getD 5, supervisor_id⟩])

/-- `Machine._handle_reject`: informational, bump `jobs_rejected`. -/
def handleReject (st : MachineState) (data : Json) : Except PyErr MachineStep :=
  match pyGet data "job_id" with
  | .error e => .error e
  | .ok _ =>
    match pyGetD data "reason" (.str "Unknown") with
    | .error e => .error e
    | .ok _ => .ok ({ st with jobs_rejected := st.jobs_rejected + 1 }, [], [])

/-- `Machine._on_message`: decode, dispatch on the `type` field.  Only
`json.JSONDecodeError` is caught; any other exception escapes the handler. -/
def machineOnMessage (st : MachineState) (m : Decoded) (now : ℚ) :
    Except PyErr MachineStep :=
  match m with
  | .fail => .ok (st, [], [])
  | .json data =>
    match pyGet data "type" with
    | .error e => .error e
    | .ok ty =>
      if ty.isStr "cfp" then handleCfp st data now
      else if ty.isStr "award" then handleAward st data
      else if ty.isStr "reject" then handleReject st data
      else .ok (st, [], [])

/-- `Machine._execute_job` after the sleep: clear busy state, bump
`jobs_completed`, publish the completion notice. -/
def executeJob (st : MachineState) (e : ExecStart) (now : ℚ) :
    MachineState × List PubMsg :=
  ({ st with busy := false, current_job := .null,
             jobs_completed := st.jobs_completed + 1 },
   [⟨.completeOf e.supervisor_id,
     .obj [("type", .str "completion"), ("machine_id", .str st.machine_id),
           ("job_id", e.job_id), ("job_type", e.job_type),
           ("execution_time", .num e.execution_time), ("timestamp", .num now)]⟩])

/-! ## Supervisor agent (`ContractNet/supervisor.py`) -/

/-- The `Job` dataclass. -/
structure Job where
  job_id : String
  job_type : String
  description : String
  timestamp : ℚ
deriving DecidableEq

/-- The `Bid` dataclass, at its annotated field types. -/
structure Bid where
  machine_id : String
  job_id : String
  proposed_time : ℚ
  timestamp : ℚ
deriving DecidableEq

/-- State of a `Supervisor` agent (`Supervisor.__init__`). -/
structure SupState where
  supervisor_id : String
  deadline : ℚ
  current_job : Option Job
  bids : List Bid
  collecting_bids : Bool
  jobs_created : Nat
  jobs_allocated : Nat
  jobs_failed : Nat

/-- The annotated type of `Bid.machine_id` / `Bid.job_id` is `str`; bid
construction in `_on_message` is embedded at those annotated types (a payload
carrying a differently-typed field is outside the modelled fragment). -/
def Json.asStr : Json → Except PyErr String
  | .str s => .ok s
  | _ => .error .typeError

/-- The annotated type of `Bid.proposed_time` / `Bid.timestamp` is `float`;
see `Json.asStr`. -/
def Json.asNum : Json → Except PyErr ℚ
  | .num q => .ok q
  | _ => .error .typeError

/-- The body of `Supervisor._on_message` inside its `try` block, after
decoding: drop payloads for another job id, log rejections, and append a
well-formed bid to the collected list.  `time.time()` (the default for a
missing `timestamp`) is the parameter `now`. -/
def supervisorBidBody (st : SupState) (data : Json) (now : ℚ) :
    Except PyErr SupState :=
  match pyGet data "job_id" with
  | .error e => .error e
  | .ok jid =>
    match st.current_job with
    | none => .error .attributeError
    | some cj =>
      if jid.isStr cj.job_id = false then .ok st
      else
        match pyGet data "type" with
        | .error e => .error e
        | .ok ty =>
          if ty.isStr "rejection" then
            match pyGet data "machine_id", pyGet data "reason" with
            | .ok _, .ok _ => .ok st
            | .error e, _ => .error e
            | _, .error e => .error e
          else
            match pyIndex data "machine_id" with
            | .error e => .error e
            | .ok midJ =>
              match midJ.asStr with
              | .error e => .error e
              | .ok mid =>
                match pyIndex data "job_id" with
                | .error e => .error e
                | .ok bjidJ =>
                  match bjidJ.asStr with
                  | .error e => .error e
                  | .ok bjid =>
                    match pyIndex data "proposed_time" with
                    | .error e => .error e
                    | .ok ptJ =>
                      match ptJ.asNum with
                      | .error e => .error e
                      | .ok pt =>
                        match pyGetD data "timestamp" (.num now) with
                        | .error e => .error e
                        | .ok tsJ =>
                          match tsJ.asNum with
                          | .error e => .error e
                          | .ok ts =>
                            .ok { st with
                                  bids := st.bids ++ [⟨mid, bjid, pt, ts⟩] }

/-- `Supervisor._on_message`: return immediately unless collecting; the
`try` block catches `json.JSONDecodeError` and `KeyError` only, so those
leave the state unchanged while any other exception escapes. -/
def supervisorOnMessage (st : SupState) (m : Decoded) (now : ℚ) :
    Except PyErr SupState :=
  if st.collecting_bids then
    match m with
    | .fail => .ok st
    | .json data =>
      match supervisorBidBody st data now with
      | .ok st' => .ok st'
      | .error (.keyError _) => .ok st
      | .error e => .error e
  else .ok st

/-- `Supervisor._send_cfp`: the broadcast call-for-proposals payload. -/
def mkCfp (st : SupState) (job : Job) (now : ℚ) : PubMsg :=
  ⟨.cfp,
   .obj [("type", .str "cfp"), ("supervisor_id", .str st.supervisor_id),
         ("job_id", .str job.job_id), ("job_type", .str job.job_type),
         ("description", .str job.description), ("deadline", .num st.deadline),
         ("timestamp", .num now)]⟩

/-- `Supervisor._select_winner`: Python `min(bids, key=lambda b:
b.proposed_time)` — the running minimum is replaced only on a strictly
smaller key, so the first minimal element wins. -/
def selectWinner (bids : List Bid) : Option Bid :=
  match bids with
  | [] => none
  | b :: bs =>
    some (bs.foldl (fun m x => if x.proposed_time < m.proposed_time then x else m) b)

/-- The award payload of `Supervisor._send_award`. -/
def mkAwardMsg (st : SupState) (w : Bid) (job : Job) (now : ℚ) : PubMsg :=
  ⟨.awardOf w.machine_id,
   .obj [("type", .str "award"), ("supervisor_id", .str st.supervisor_id),
         ("job_id", .str job.job_id), ("job_type", .str job.job_type),
         ("machine_id", .str w.machine_id), ("timestamp", .num now)]⟩

/-- One losing-bidder rejection of `Supervisor._send_award`. -/
def mkRejectMsg (st : SupState) (job : Job) (mid : String) (now : ℚ) : PubMsg :=
  ⟨.rejectOf mid,
   .obj [("type", .str "reject"), ("supervisor_id", .str st.supervisor_id),
         ("job_id", .str job.job_id),
         ("reason", .str "Another machine was selected"),
         ("timestamp", .num now)]⟩

/-- `Supervisor._send_award`: the award to the winner followed by a
rejection to every collected bid whose machine id differs from the
winner's. -/
def sendAwardMsgs (st : SupState) (w : Bid) (job : Job) (now : ℚ) : List PubMsg :=
  mkAwardMsg st w job now ::
    (st.bids.filter (fun b => b.machine_id != w.machine_id)).map
      (fun b => mkRejectMsg st job b.machine_id now)

/-- Tail of `Supervisor._run_auction` after the deadline flip: select the
winner from the sealed bid set, award or fail, update the counters, clear
the current job. -/
def finishAuction (st : SupState) (job : Job) (now : ℚ) : SupState × List PubMsg :=
  match selectWinner st.bids with
  | some w =>
    ({ st with jobs_allocated := st.jobs_allocated + 1, current_job := none },
     sendAwardMsgs st w job now)
  | none =>
    ({ st with jobs_failed := st.jobs_failed + 1, current_job := none }, [])

/-- Head of `Supervisor._run_auction`: install the job, clear the bid set,
open collection. -/
def openAuction (st : SupState) (job : Job) : SupState :=
  { st with current_job := some job, bids := [], collecting_bids := true }

/-- Fold the message callback over a sequence of (decoded payload,
arrival-time) pairs. -/
def foldMessages (st : SupState) (msgs : List (Decoded × ℚ)) :
    Except PyErr SupState :=
  msgs.foldlM (fun s m => supervisorOnMessage s m.1 m.2) st

/-- `Supervisor._run_auction` as a function of the messages delivered while
collecting (`early`) and those delivered after the deadline flipped
`collecting_bids` off (`late`): open, broadcast the CFP, ingest `early`,
seal, ingest `late` (each a no-op by the closed-flag guard), then finish.
Returns the final state and every message published during the auction. -/
def runAuctionWith (st : SupState) (job : Job) (early late : List (Decoded × ℚ))
    (now : ℚ) : Except PyErr (SupState × List PubMsg) :=
  let st1 := openAuction st job
  let cfpMsg := mkCfp st1 job now
  match foldMessages st1 early with
  | .error e => .error e
  | .ok st2 =>
    let st3 := { st2 with collecting_bids := false }
    match foldMessages st3 late with
    | .error e => .error e
    | .ok st4 =>
      let (st5, outMsgs) := finishAuction st4 job now
      .ok (st5, cfpMsg :: outMsgs)

/-- The bid set accepted before the deadline: the collected list after
folding the collecting-phase messages. -/
def collectedBids (st : SupState) (job : Job) (early : List (Decoded × ℚ)) :
    Except PyErr (List Bid) :=
  match foldMessages (openAuction st job) early with
  | .error e => .error e
  | .ok st2 => .ok st2.bids

/-- Is a published message an Award? -/
def isAwardMsg (m : PubMsg) : Bool :=
  match m.payload.field "type" with
  | some (.str t) => t == "award"
  | _ => false

/-- Is a published message a losing-bidder rejection? -/
def isRejectMsg (m : PubMsg) : Bool :=
  match m.payload.field "type" with
  | some (.str t) => t == "reject"
  | _ => false

/-- Number of Award messages in a published batch. -/
def countAwards (msgs : List PubMsg) : Nat :=
  (msgs.filter isAwardMsg).length

/-- The machine ids awarded to, read off the award topics. -/
def awardTargets (msgs : List PubMsg) : List String :=
  msgs.filterMap (fun m =>
    match m.topic with
    | .awardOf mid => some mid
    | _ => none)

/-- The fold step of `_select_winner`'s `min`: replace the running minimum
only on a strictly smaller key. -/
def minStep (m x : Bid) : Bid :=
  if x.proposed_time < m.proposed_time then x else m

/-! ## Concrete scenario values used by witnesses and counterexamples -/

/-- A sample job, as `_generate_job` would produce. -/
def jobW : Job := ⟨"j1", "job_A", "Execute job_A operation", 0⟩

/-- A supervisor at rest between auctions. -/
def stW : SupState := ⟨"sup", 3, none, [], false, 1, 0, 0⟩

/-- A supervisor mid-collection on `jobW`. -/
def supCollectW : SupState := ⟨"sup", 3, some jobW, [], true, 1, 0, 0⟩

/-- A well-formed bid payload for `jobW` from machine `m1`. -/
def bidPayloadW : Json :=
  .obj [("type", .str "bid"), ("machine_id", .str "m1"), ("job_id", .str "j1"),
        ("proposed_time", .num 3), ("timestamp", .num 1)]

/-- One collecting-phase delivery of `bidPayloadW`. -/
def earlyW : List (Decoded × ℚ) := [(.json bidPayloadW, 1)]

/-- The bid the supervisor collects from `bidPayloadW`. -/
def bW : Bid := ⟨"m1", "j1", 3, 1⟩

/-- Equal-duration bids: `b1W` arrives first but carries the later
submission timestamp. -/
def b1W : Bid := ⟨"m1", "j1", 3, 10⟩

/-- See `b1W`: same proposed duration, earlier timestamp, arrives second. -/
def b2W : Bid := ⟨"m2", "j1", 3, 5⟩

/-- A sample capability table. -/
def capsW : List (String × ℚ) := [("job_A", 5), ("job_B", 3)]

/-- An idle machine that has never bid (`jobs_bid = 0`). -/
def mIdleW : MachineState := ⟨"m1", capsW, false, .null, 0, 0, 0, 0, 0⟩

/-- A machine currently busy executing job `j0`. -/
def mBusyW : MachineState := ⟨"m1", capsW, true, .str "j0", 0, 1, 1, 0, 0⟩

/-- Field list of a CFP payload for `jobW`. -/
def cfpFsW : List (String × Json) :=
  [("type", .str "cfp"), ("supervisor_id", .str "sup"), ("job_id", .str "j1"),
   ("job_type", .str "job_A"), ("description", .str "Execute job_A operation"),
   ("deadline", .num 3), ("timestamp", .num 0)]

/-- A CFP payload for `jobW`. -/
def cfpW : Json := .obj cfpFsW

/-- Field list of an award addressed to `m1` for a job it never bid on,
with a job type outside its capability table. -/
def awardUnbidFsW : List (String × Json) :=
  [("type", .str "award"), ("supervisor_id", .str "sup"),
   ("job_id", .str "j_unknown"), ("job_type", .str "job_Z"),
   ("machine_id", .str "m1"), ("timestamp", .num 2)]

/-- See `awardUnbidFsW`. -/
def awardUnbidW : Json := .obj awardUnbidFsW

/-- Field list of an award addressed to a different machine (`m9`). -/
def awardOtherFsW : List (String × Json) :=
  [("type", .str "award"), ("supervisor_id", .str "sup"),
   ("job_id", .str "j1"), ("job_type", .str "job_A"),
   ("machine_id", .str "m9"), ("timestamp", .num 2)]

/-- See `awardOtherFsW`. -/
def awardOtherW : Json := .obj awardOtherFsW

/-- A duplicate award to `m1` for the very job `j0` it is busy executing. -/
def awardDupW : Json :=
  .obj [("type", .str "award"), ("supervisor_id", .str "sup"),
        ("job_id", .str "j0"), ("job_type", .str "job_A"),
        ("machine_id", .str "m1"), ("timestamp", .num 2)]

/-! ## Winner-selection lemmas -/

theorem selectWinner_cons (b : Bid) (bs : List Bid) :
    selectWinner (b :: bs) = some (bs.foldl minStep b) := rfl

theorem foldl_minStep_split (l : List Bid) :
    ∀ m : Bid, ∃ l1 l2,
      m :: l = l1 ++ l.foldl minStep m :: l2 ∧
      (∀ x ∈ m :: l, (l.foldl minStep m).proposed_time ≤ x.proposed_time) ∧
      (∀ x ∈ l1, (l.foldl minStep m).proposed_time < x.proposed_time) := by
  induction l with
  | nil =>
    intro m
    exact ⟨[], [], rfl, by simp, by simp⟩
  | cons x l ih =>
    intro m
    have hstep : (x :: l).foldl minStep m = l.foldl minStep (minStep m x) := rfl
    by_cases h : x.proposed_time < m.proposed_time
    · have hfold : (x :: l).foldl minStep m = l.foldl minStep x := by
        rw [hstep]; simp [minStep, h]
      obtain ⟨l1, l2, hsplit, hmin, hstrict⟩ := ih x
      have hlex : (l.foldl minStep x).proposed_time ≤ x.proposed_time :=
        hmin x (by simp)
      refine ⟨m :: l1, l2, ?_, ?_, ?_⟩
      · rw [hfold, List.cons_append]
        exact congrArg (m :: ·) hsplit
      · intro y hy
        rw [hfold]
        rcases List.mem_cons.mp hy with hym | hy2
        · subst hym; linarith
        · exact hmin y hy2
      · intro y hy
        rw [hfold]
        rcases List.mem_cons.mp hy with hym | hy1
        · subst hym; linarith
        · exact hstrict y hy1
    · have hfold : (x :: l).foldl minStep m = l.foldl minStep m := by
        rw [hstep]; simp [minStep, h]
      obtain ⟨l1, l2, hsplit, hmin, hstrict⟩ := ih m
      rcases l1 with _ | ⟨c, t⟩
      · -- the running minimum survives: it heads the split
        simp only [List.nil_append] at hsplit
        have hm : m = l.foldl minStep m := by
          injection hsplit with h1 h2
        refine ⟨[], x :: l, ?_, ?_, by simp⟩
        · rw [hfold, ← hm, List.nil_append]
        · intro y hy
          rw [hfold, ← hm]
          rcases List.mem_cons.mp hy with hym | hy2
          · subst hym; exact le_refl _
          · rcases List.mem_cons.mp hy2 with hyx | hyl
            · subst hyx; exact le_of_not_lt h
            · have h3 := hmin y (List.mem_cons_of_mem m hyl)
              rw [← hm] at h3
              exact h3
      · -- the split of m :: l starts with m; insert x after it
        rw [List.cons_append] at hsplit
        have hc1 : m = c := by injection hsplit with h1 h2
        have hc2 : l = t ++ l.foldl minStep m :: l2 := by
          injection hsplit with h1 h2
        subst hc1
        have hltm : (l.foldl minStep m).proposed_time < m.proposed_time :=
          hstrict m (by simp)
        refine ⟨m :: x :: t, l2, ?_, ?_, ?_⟩
        · rw [hfold, List.cons_append, List.cons_append]
          exact congrArg (m :: ·) (congrArg (x :: ·) hc2)
        · intro y hy
          rw [hfold]
          rcases List.mem_cons.mp hy with hym | hy2
          · subst hym; exact le_of_lt hltm
          · rcases List.mem_cons.mp hy2 with hyx | hyl
            · subst hyx; linarith
            · exact hmin y (List.mem_cons_of_mem _ hyl)
        · intro y hy
          rw [hfold]
          rcases List.mem_cons.mp hy with hym | hy2
          · subst hym; exact hltm
          · rcases List.mem_cons.mp hy2 with hyx | hyt
            · subst hyx; linarith
            · exact hstrict y (List.mem_cons_of_mem _ hyt)

theorem selectWinner_split (bids : List Bid) (w : Bid)
    (h : selectWinner bids = some w) :
    ∃ l1 l2, bids = l1 ++ w :: l2 ∧
      (∀ x ∈ bids, w.proposed_time ≤ x.proposed_time) ∧
      (∀ x ∈ l1, w.proposed_time < x.proposed_time) := by
  rcases bids with _ | ⟨b, bs⟩
  · simp [selectWinner] at h
  · rw [selectWinner_cons] at h
    have hw : bs.foldl minStep b = w := by injection h
    obtain ⟨l1, l2, hsplit, hmin, hstrict⟩ := foldl_minStep_split bs b
    rw [hw] at hsplit hmin hstrict
    exact ⟨l1, l2, hsplit, hmin, hstrict⟩

theorem selectWinner_mem (bids : List Bid) (w : Bid)
    (h : selectWinner bids = some w) : w ∈ bids := by
  obtain ⟨l1, l2, hsplit, -, -⟩ := selectWinner_split bids w h
  rw [hsplit]
  exact List.mem_append_right l1 (by simp)

theorem selectWinner_le (bids : List Bid) (w : Bid)
    (h : selectWinner bids = some w) :
    ∀ x ∈ bids, w.proposed_time ≤ x.proposed_time :=
  (selectWinner_split bids w h).choose_spec.choose_spec.2.1

/-! ## Supervisor message-fold lemmas -/

theorem supervisorOnMessage_closed (st : SupState) (m : Decoded) (now : ℚ)
    (h : st.collecting_bids = false) :
    supervisorOnMessage st m now = .ok st := by
  simp [supervisorOnMessage, h]

theorem foldMessages_closed (st : SupState) (msgs : List (Decoded × ℚ))
    (h : st.collecting_bids = false) :
    foldMessages st msgs = .ok st := by
  induction msgs with
  | nil => rfl
  | cons m ms ih =>
    unfold foldMessages at *
    rw [List.foldlM_cons, supervisorOnMessage_closed st m.1 m.2 h]
    simpa using ih

theorem exceptBind_error {α β : Type} (e : PyErr) (f : α → Except PyErr β) :
    ((Except.error e : Except PyErr α) >>= f) = .error e := rfl

theorem exceptBind_ok {α β : Type} (a : α) (f : α → Except PyErr β) :
    ((Except.ok a : Except PyErr α) >>= f) = f a := rfl

/-- The message body either leaves the state alone or appends one bid. -/
theorem supervisorBidBody_cases (st : SupState) (data : Json) (now : ℚ)
    (st2 : SupState) (h : supervisorBidBody st data now = .ok st2) :
    st2 = st ∨ ∃ b, st2 = { st with bids := st.bids ++ [b] } := by
  unfold supervisorBidBody at h
  iterate 14 (all_goals try split at h)
  all_goals try exact Except.noConfusion h
  all_goals injection h with h1
  all_goals first
    | (left; exact h1.symm)
    | (right; exact ⟨_, h1.symm⟩)

theorem supervisorOnMessage_cases (st : SupState) (m : Decoded) (now : ℚ)
    (st2 : SupState) (h : supervisorOnMessage st m now = .ok st2) :
    st2 = st ∨ ∃ b, st2 = { st with bids := st.bids ++ [b] } := by
  unfold supervisorOnMessage at h
  iterate 4 (all_goals try split at h)
  all_goals try exact Except.noConfusion h
  all_goals injection h with h1
  all_goals try (left; exact h1.symm)
  subst h1
  exact supervisorBidBody_cases st _ now _ (by assumption)

/-- Folding messages touches only the collected bid list: the flags,
current job and counters are unchanged. -/
theorem foldMessages_frame (msgs : List (Decoded × ℚ)) :
    ∀ st st2 : SupState, foldMessages st msgs = .ok st2 →
      st2.collecting_bids = st.collecting_bids ∧
      st2.current_job = st.current_job ∧
      st2.jobs_allocated = st.jobs_allocated ∧
      st2.jobs_failed = st.jobs_failed := by
  induction msgs with
  | nil =>
    intro st st2 h
    have : st = st2 := by injection h
    subst this
    exact ⟨rfl, rfl, rfl, rfl⟩
  | cons m ms ih =>
    intro st st2 h
    unfold foldMessages at h
    rw [List.foldlM_cons] at h
    rcases h1 : supervisorOnMessage st m.1 m.2 with e | s1
    · rw [h1, exceptBind_error] at h
      exact Except.noConfusion h
    · rw [h1, exceptBind_ok] at h
      have h2 := ih s1 st2 h
      have h3 := supervisorOnMessage_cases st m.1 m.2 s1 h1
      rcases h3 with h3 | ⟨b, h3⟩ <;> subst h3 <;>
        exact ⟨h2.1, h2.2.1, h2.2.2.1, h2.2.2.2⟩

/-! ## Published-message classification lemmas -/

theorem isAwardMsg_mkCfp (st : SupState) (job : Job) (now : ℚ) :
    isAwardMsg (mkCfp st job now) = false := rfl

theorem isAwardMsg_mkAward (st : SupState) (w : Bid) (job : Job) (now : ℚ) :
    isAwardMsg (mkAwardMsg st w job now) = true := rfl

theorem isAwardMsg_mkReject (st : SupState) (job : Job) (mid : String) (now : ℚ) :
    isAwardMsg (mkRejectMsg st job mid now) = false := rfl

theorem isRejectMsg_mkCfp (st : SupState) (job : Job) (now : ℚ) :
    isRejectMsg (mkCfp st job now) = false := rfl

theorem filter_isAward_rejects (st : SupState) (job : Job) (now : ℚ) (l : List Bid) :
    (l.map (fun b => mkRejectMsg st job b.machine_id now)).filter isAwardMsg = [] := by
  induction l with
  | nil => rfl
  | cons b l ih =>
    rw [List.map_cons, List.filter_cons, isAwardMsg_mkReject]
    simp [ih]

theorem awardTargets_mkReject (st : SupState) (job : Job) (now : ℚ) (l : List Bid) :
    awardTargets (l.map (fun b => mkRejectMsg st job b.machine_id now)) = [] := by
  induction l with
  | nil => rfl
  | cons b l ih =>
    unfold awardTargets at *
    rw [List.map_cons, List.filterMap_cons]
    simp [mkRejectMsg, ih]

/-- A CFP followed by an award fan-out contains exactly one Award. -/
theorem countAwards_award_batch (cf st : SupState) (w : Bid) (job : Job) (now : ℚ) :
    countAwards (mkCfp cf job now :: sendAwardMsgs st w job now) = 1 := by
  simp [countAwards, sendAwardMsgs, List.filter_cons, isAwardMsg_mkCfp,
    isAwardMsg_mkAward, filter_isAward_rejects]

/-- The only awarded machine in a CFP-plus-award fan-out is the winner. -/
theorem awardTargets_award_batch (cf st : SupState) (w : Bid) (job : Job) (now : ℚ) :
    awardTargets (mkCfp cf job now :: sendAwardMsgs st w job now) = [w.machine_id] := by
  have h4 := awardTargets_mkReject st job now
    (st.bids.filter (fun b => b.machine_id != w.machine_id))
  unfold awardTargets at h4 ⊢
  simp only [sendAwardMsgs, List.filterMap_cons]
  simp [mkCfp, mkAwardMsg, h4]

/-! ## Claim theorems -/

/-- **C1**: For every auction, at most one Award message is published, and
its recipient is a machine whose collected Bid has the minimum proposed
completion duration among all Bids accepted into the bid set before the
deadline. -/
theorem auction_award_unique_minimal
    (st : SupState) (job : Job) (early late : List (Decoded × ℚ)) (now : ℚ)
    (st2 : SupState) (msgs : List PubMsg) (bidsAcc : List Bid)
    (hrun : runAuctionWith st job early late now = .ok (st2, msgs))
    (hacc : collectedBids st job early = .ok bidsAcc) :
    countAwards msgs ≤ 1 ∧
    ∀ mid ∈ awardTargets msgs, ∃ b ∈ bidsAcc, b.machine_id = mid ∧
      ∀ b2 ∈ bidsAcc, b.proposed_time ≤ b2.proposed_time := by
  unfold runAuctionWith at hrun
  unfold collectedBids at hacc
  dsimp only at hrun
  rcases hfe : foldMessages (openAuction st job) early with e | stc
  · rw [hfe] at hrun
    exact Except.noConfusion hrun
  · rw [hfe] at hacc
    have hbids : bidsAcc = stc.bids := by
      injection hacc with h1
      exact h1.symm
    subst hbids
    have hlate := foldMessages_closed { stc with collecting_bids := false } late rfl
    rw [hfe] at hrun
    dsimp only at hrun
    rw [hlate] at hrun
    dsimp only at hrun
    simp only [finishAuction] at hrun
    rcases hw : selectWinner stc.bids with - | w
    · rw [hw] at hrun
      dsimp only at hrun
      have hmsgs : msgs = [mkCfp (openAuction st job) job now] := by
        injection hrun with h1
        exact (congrArg Prod.snd h1).symm
      subst hmsgs
      constructor
      · simp [countAwards, List.filter_cons, isAwardMsg_mkCfp]
      · intro mid hmid
        simp [awardTargets, List.filterMap_cons, mkCfp] at hmid
    · rw [hw] at hrun
      dsimp only at hrun
      have hmsgs : msgs = mkCfp (openAuction st job) job now ::
          sendAwardMsgs { stc with collecting_bids := false } w job now := by
        injection hrun with h1
        exact (congrArg Prod.snd h1).symm
      subst hmsgs
      constructor
      · rw [countAwards_award_batch]
      · intro mid hmid
        rw [awardTargets_award_batch] at hmid
        have hmid2 : mid = w.machine_id := by simpa using hmid
        subst hmid2
        exact ⟨w, selectWinner_mem stc.bids w hw, rfl,
               selectWinner_le stc.bids w hw⟩

/-- **C1 witness**: a concrete auction with one collected bid publishes
exactly one award, to that bid's machine. -/
theorem auction_award_unique_minimal_witness :
    countAwards [mkCfp (openAuction stW jobW) jobW 0,
                 mkAwardMsg ⟨"sup", 3, some jobW, [bW], false, 1, 0, 0⟩ bW jobW 0] ≤ 1 ∧
    ∀ mid ∈ awardTargets [mkCfp (openAuction stW jobW) jobW 0,
                 mkAwardMsg ⟨"sup", 3, some jobW, [bW], false, 1, 0, 0⟩ bW jobW 0],
      ∃ b ∈ [bW], b.machine_id = mid ∧
        ∀ b2 ∈ [bW], b.proposed_time ≤ b2.proposed_time :=
  auction_award_unique_minimal stW jobW earlyW [] 0
    ⟨"sup", 3, none, [bW], false, 1, 1, 0⟩
    [mkCfp (openAuction stW jobW) jobW 0,
     mkAwardMsg ⟨"sup", 3, some jobW, [bW], false, 1, 0, 0⟩ bW jobW 0]
    [bW] rfl rfl

/-- **C2 counterexample**: two collected bids with equal proposed duration
where the second-collected bid carries the strictly earlier submission
timestamp.  `_select_winner` picks the first-collected bid (`min` keyed on
`proposed_time` alone), not the earlier-timestamped one the claim
requires. -/
theorem tie_earlier_timestamp_loses_cex :
    b1W.proposed_time = b2W.proposed_time ∧
    b2W.timestamp < b1W.timestamp ∧
    b1W ≠ b2W ∧
    selectWinner [b1W, b2W] = some b1W := by
  refine ⟨rfl, ?_, ?_, rfl⟩
  · norm_num [b1W, b2W]
  · decide

/-- **C2 amended**: for collected bids with equal (minimal) proposed
duration, winner selection picks the one that entered the collected set
first — submission timestamps are never consulted.  The winner splits the
collected sequence so that every bid before it has strictly greater
proposed duration; selection is deterministic since `selectWinner` is a
pure function of the collected sequence. -/
theorem tie_first_collected_wins (bids : List Bid) (w : Bid)
    (h : selectWinner bids = some w) :
    ∃ l1 l2, bids = l1 ++ w :: l2 ∧
      (∀ x ∈ bids, w.proposed_time ≤ x.proposed_time) ∧
      (∀ x ∈ l1, w.proposed_time < x.proposed_time) :=
  selectWinner_split bids w h

/-- **C2 witness**: on the concrete equal-duration pair, the winner is the
first-collected bid and heads the split. -/
theorem tie_first_collected_wins_witness :
    ∃ l1 l2, [b1W, b2W] = l1 ++ b1W :: l2 ∧
      (∀ x ∈ [b1W, b2W], b1W.proposed_time ≤ x.proposed_time) ∧
      (∀ x ∈ l1, b1W.proposed_time < x.proposed_time) :=
  tie_first_collected_wins [b1W, b2W] b1W rfl

/-- **C3**: any message delivered after the deadline-driven
COLLECTING→EVALUATING transition (the `collecting_bids = False` flip) is
never admitted into the bid set and never affects the auction's outcome:
the auction's final state and published messages equal those of the same
auction with no post-deadline deliveries at all. -/
theorem late_messages_no_effect (st : SupState) (job : Job)
    (early late : List (Decoded × ℚ)) (now : ℚ) :
    runAuctionWith st job early late now = runAuctionWith st job early [] now := by
  unfold runAuctionWith
  dsimp only
  rcases hfe : foldMessages (openAuction st job) early with e | stc
  · rfl
  · dsimp only
    rw [foldMessages_closed { stc with collecting_bids := false } late rfl,
        foldMessages_closed { stc with collecting_bids := false } [] rfl]

/-- **C4**: an auction whose bid set is empty when the deadline elapses
publishes nothing beyond the initial CFP (in particular no Award and no
Rejection), increments the failed-job counter by exactly one, and leaves
the allocated-job counter unchanged. -/
theorem empty_bidset_fails
    (st : SupState) (job : Job) (early late : List (Decoded × ℚ)) (now : ℚ)
    (st2 : SupState) (msgs : List PubMsg)
    (hrun : runAuctionWith st job early late now = .ok (st2, msgs))
    (hacc : collectedBids st job early = .ok []) :
    msgs = [mkCfp (openAuction st job) job now] ∧
    countAwards msgs = 0 ∧
    (msgs.filter isRejectMsg).length = 0 ∧
    st2.jobs_failed = st.jobs_failed + 1 ∧
    st2.jobs_allocated = st.jobs_allocated := by
  unfold runAuctionWith at hrun
  unfold collectedBids at hacc
  dsimp only at hrun
  rcases hfe : foldMessages (openAuction st job) early with e | stc
  · rw [hfe] at hrun
    exact Except.noConfusion hrun
  · rw [hfe] at hacc
    have hbids : stc.bids = [] := by injection hacc with h1
    have hframe := foldMessages_frame early (openAuction st job) stc hfe
    have hlate := foldMessages_closed { stc with collecting_bids := false } late rfl
    rw [hfe] at hrun
    dsimp only at hrun
    rw [hlate] at hrun
    dsimp only at hrun
    simp only [finishAuction] at hrun
    rw [show selectWinner stc.bids = none from hbids ▸ rfl] at hrun
    dsimp only at hrun
    have h1 : ({ stc with collecting_bids := false, jobs_failed := stc.jobs_failed + 1, current_job := none } : SupState) = st2 ∧
        [mkCfp (openAuction st job) job now] = msgs := by
      injection hrun with hp
      exact ⟨congrArg Prod.fst hp, congrArg Prod.snd hp⟩
    obtain ⟨hst, hmsgs⟩ := h1
    subst hmsgs
    refine ⟨rfl, ?_, ?_, ?_, ?_⟩
    · simp [countAwards, List.filter_cons, isAwardMsg_mkCfp]
    · simp [List.filter_cons, isRejectMsg_mkCfp]
    · rw [← hst]
      have : stc.jobs_failed = st.jobs_failed := by
        rw [hframe.2.2.2]
        rfl
      simpa using this
    · rw [← hst]
      have : stc.jobs_allocated = st.jobs_allocated := by
        rw [hframe.2.2.1]
        rfl
      simpa using this

/-- **C4 witness**: a concrete auction with no collecting-phase deliveries
and one late delivery fails with only the CFP published and the failure
counter bumped. -/
theorem empty_bidset_fails_witness :
    [mkCfp (openAuction stW jobW) jobW 0] = [mkCfp (openAuction stW jobW) jobW 0] ∧
    countAwards [mkCfp (openAuction stW jobW) jobW 0] = 0 ∧
    ([mkCfp (openAuction stW jobW) jobW 0].filter isRejectMsg).length = 0 ∧
    (⟨"sup", 3, none, [], false, 1, 0, 1⟩ : SupState).jobs_failed = stW.jobs_failed + 1 ∧
    (⟨"sup", 3, none, [], false, 1, 0, 1⟩ : SupState).jobs_allocated = stW.jobs_allocated :=
  empty_bidset_fails stW jobW [] [(.json bidPayloadW, 9)] 0
    ⟨"sup", 3, none, [], false, 1, 0, 1⟩
    [mkCfp (openAuction stW jobW) jobW 0] rfl rfl

/-- **C5 counterexample**: the rejection a busy machine publishes carries
the reason string `"Machine is busy"` (capital M), not the claimed
`"machine is busy"`. -/
theorem busy_cfp_reason_cex :
    machineOnMessage mBusyW (.json cfpW) 0 =
      .ok (mBusyW, [sendRejectionMsg mBusyW (.str "sup") (.str "j1")
                      "Machine is busy" 0], []) ∧
    (sendRejectionMsg mBusyW (.str "sup") (.str "j1")
        "Machine is busy" 0).payload.field "reason" ≠ some (.str "machine is busy") := by
  refine ⟨rfl, ?_⟩
  intro hcontra
  simp [sendRejectionMsg, Json.field, lookupField] at hcontra

/-- **C5 amended**: a busy machine answers any CFP with a single Rejection
whose reason is `"Machine is busy"` (never a Bid), and its state — busy
flag, current job, counters — is returned unchanged. -/
theorem busy_machine_cfp_rejection (st : MachineState)
    (fs : List (String × Json)) (now : ℚ)
    (hb : st.busy = true) (ht : fieldD fs "type" = .str "cfp") :
    machineOnMessage st (.json (.obj fs)) now =
      .ok (st, [sendRejectionMsg st (fieldD fs "supervisor_id") (fieldD fs "job_id")
                  "Machine is busy" now], []) := by
  simp [machineOnMessage, pyGet, ht, Json.isStr, handleCfp, hb]

/-- **C5 amended witness**: the busy machine `mBusyW` handles `cfpW` with a
single "Machine is busy" rejection and no state change. -/
theorem busy_machine_cfp_rejection_witness :
    machineOnMessage mBusyW (.json cfpW) 0 =
      .ok (mBusyW, [sendRejectionMsg mBusyW (fieldD cfpFsW "supervisor_id")
                      (fieldD cfpFsW "job_id") "Machine is busy" 0], []) :=
  busy_machine_cfp_rejection mBusyW cfpFsW 0 rfl rfl

/-- **C6 counterexample**: an idle machine that never bid on anything
(`jobs_bid = 0`) receives an Award whose `machine_id` matches but whose job
id it never bid on; far from ignoring it, the machine increments
`jobs_won`, flips busy, records the job and starts an execution. -/
theorem award_unbid_job_accepted_cex :
    machineOnMessage mIdleW (.json awardUnbidW) 2 =
      .ok ({ mIdleW with jobs_won := 1, busy := true, current_job := .str "j_unknown" }, [],
           [⟨.str "j_unknown", .str "job_Z", 5, .str "sup"⟩]) ∧
    mIdleW.jobs_bid = 0 ∧
    ({ mIdleW with jobs_won := 1, busy := true, current_job := .str "j_unknown" } : MachineState).busy ≠ mIdleW.busy := by
  refine ⟨rfl, rfl, ?_⟩
  decide

/-- **C6 amended**: an Award whose target machine id differs from the
machine's own id is ignored — no message, no execution start, and the
state is returned unchanged.  The job id is not validated: an Award with a
matching machine id is processed even for a job the machine never bid
on. -/
theorem award_other_machine_ignored (st : MachineState)
    (fs : List (String × Json)) (now : ℚ)
    (ht : fieldD fs "type" = .str "award")
    (hm : (fieldD fs "machine_id").isStr st.machine_id = false) :
    machineOnMessage st (.json (.obj fs)) now = .ok (st, [], []) := by
  have hm2 : (fieldD fs "machine_id").isStr st.machine_id = false := hm
  unfold Json.isStr at hm2
  simp [machineOnMessage, pyGet, ht, Json.isStr, handleAward, hm2]

/-- **C6 amended witness**: `mIdleW` (id `m1`) ignores the award addressed
to `m9`. -/
theorem award_other_machine_ignored_witness :
    machineOnMessage mIdleW (.json awardOtherW) 2 = .ok (mIdleW, [], []) :=
  award_other_machine_ignored mIdleW awardOtherFsW 2 rfl rfl

/-- **C7** (claim right, code wrong): a duplicate Award delivered to
`mBusyW` — already busy executing that very job `j0` — is *not* a no-op:
`_handle_award` has no busy check, so it increments `jobs_won` again,
re-sets the busy flag and current job, and starts a second execution of
the same job. -/
theorem award_while_busy_reexecutes :
    machineOnMessage mBusyW (.json awardDupW) 2 =
      .ok ({ mBusyW with jobs_won := mBusyW.jobs_won + 1, busy := true, current_job := .str "j0" }, [],
           [⟨.str "j0", .str "job_A", 5, .str "sup"⟩]) ∧
    mBusyW.busy = true ∧
    ({ mBusyW with jobs_won := mBusyW.jobs_won + 1, busy := true, current_job := .str "j0" } : MachineState).jobs_won = mBusyW.jobs_won + 1 :=
  ⟨rfl, rfl, rfl⟩

/-- **C8** (claim right, code wrong): a valid-JSON payload that is not a
record — the empty array — raises `AttributeError` in both message
handlers: the supervisor's `except` clause catches only `JSONDecodeError`
and `KeyError`, the machine's only `JSONDecodeError`, so neither discards
it silently. -/
theorem malformed_payload_raises :
    supervisorOnMessage supCollectW (.json (.arr [])) 0 = .error .attributeError ∧
    machineOnMessage mIdleW (.json (.arr [])) 0 = .error .attributeError :=
  ⟨rfl, rfl⟩

/-- **C9**: an idle machine whose capability table contains the CFP's job
type publishes exactly one Bid, whose proposed duration is the capability
table's entry for that job type, and its busy flag is still false
afterwards (only `jobs_bid` changes). -/
theorem idle_capable_cfp_bids (st : MachineState)
    (fs : List (String × Json)) (now : ℚ) (ty : String) (d : ℚ)
    (hb : st.busy = false)
    (ht : fieldD fs "type" = .str "cfp")
    (hjt : fieldD fs "job_type" = .str ty)
    (hcap : st.capabilities.lookup ty = some d) :
    machineOnMessage st (.json (.obj fs)) now =
      .ok ({ st with jobs_bid := st.jobs_bid + 1 },
           [⟨.bidOf (fieldD fs "supervisor_id"),
             .obj [("type", .str "bid"), ("machine_id", .str st.machine_id),
                   ("job_id", fieldD fs "job_id"), ("proposed_time", .num d),
                   ("timestamp", .num now)]⟩], []) ∧
    ({ st with jobs_bid := st.jobs_bid + 1 } : MachineState).busy = false := by
  refine ⟨?_, hb⟩
  simp [machineOnMessage, pyGet, ht, Json.isStr, handleCfp, hjt, hb, capGet,
    hcap, sendBidStep]

/-- **C9 witness**: idle `mIdleW` answers `cfpW` with one Bid of duration 5
(its `job_A` capability) and stays non-busy. -/
theorem idle_capable_cfp_bids_witness :
    machineOnMessage mIdleW (.json cfpW) 0 =
      .ok ({ mIdleW with jobs_bid := mIdleW.jobs_bid + 1 },
           [⟨.bidOf (fieldD cfpFsW "supervisor_id"),
             .obj [("type", .str "bid"), ("machine_id", .str mIdleW.machine_id),
                   ("job_id", fieldD cfpFsW "job_id"),
                   ("proposed_time", .num 5), ("timestamp", .num 0)]⟩], []) ∧
    ({ mIdleW with jobs_bid := mIdleW.jobs_bid + 1 } : MachineState).busy = false :=
  idle_capable_cfp_bids mIdleW cfpFsW 0 "job_A" 5 rfl rfl rfl rfl

/-- **C10**: an Award accepted by an idle machine for a job type absent
from its capability table still executes, with the default execution
duration 5.0, and the Completion notice it later publishes reports 5.0 as
the execution time. -/
theorem award_unknown_jobtype_default (st : MachineState)
    (fs : List (String × Json)) (now now2 : ℚ) (jt : String)
    (_hb : st.busy = false)
    (ht : fieldD fs "type" = .str "award")
    (hm : fieldD fs "machine_id" = .str st.machine_id)
    (hjt : fieldD fs "job_type" = .str jt)
    (hcap : st.capabilities.lookup jt = none) :
    machineOnMessage st (.json (.obj fs)) now =
      .ok ({ st with jobs_won := st.jobs_won + 1, busy := true, current_job := fieldD fs "job_id" }, [],
           [⟨fieldD fs "job_id", .str jt, 5, fieldD fs "supervisor_id"⟩]) ∧
    (executeJob { st with jobs_won := st.jobs_won + 1, busy := true, current_job := fieldD fs "job_id" }
        ⟨fieldD fs "job_id", .str jt, 5, fieldD fs "supervisor_id"⟩ now2).2 =
      [⟨.completeOf (fieldD fs "supervisor_id"),
        .obj [("type", .str "completion"), ("machine_id", .str st.machine_id),
              ("job_id", fieldD fs "job_id"), ("job_type", .str jt),
              ("execution_time", .num 5), ("timestamp", .num now2)]⟩] := by
  constructor
  · simp [machineOnMessage, pyGet, ht, Json.isStr, handleAward, hm, hjt,
      capGet, hcap]
  · simp [executeJob]

/-- **C10 witness**: idle `mIdleW` accepts `awardUnbidW` for job type
`job_Z` (absent from its table), executes with the 5.0 default, and the
completion notice reports 5.0. -/
theorem award_unknown_jobtype_default_witness :
    machineOnMessage mIdleW (.json awardUnbidW) 2 =
      .ok ({ mIdleW with jobs_won := mIdleW.jobs_won + 1, busy := true, current_job := fieldD awardUnbidFsW "job_id" }, [],
           [⟨fieldD awardUnbidFsW "job_id", .str "job_Z", 5, fieldD awardUnbidFsW "supervisor_id"⟩]) ∧
    (executeJob { mIdleW with jobs_won := mIdleW.jobs_won + 1, busy := true, current_job := fieldD awardUnbidFsW "job_id" }
        ⟨fieldD awardUnbidFsW "job_id", .str "job_Z", 5, fieldD awardUnbidFsW "supervisor_id"⟩ 7).2 =
      [⟨.completeOf (fieldD awardUnbidFsW "supervisor_id"),
        .obj [("type", .str "completion"), ("machine_id", .str mIdleW.machine_id),
              ("job_id", fieldD awardUnbidFsW "job_id"), ("job_type", .str "job_Z"),
              ("execution_time", .num 5), ("timestamp", .num 7)]⟩] :=
  award_unknown_jobtype_default mIdleW awardUnbidFsW 2 7 "job_Z" rfl rfl rfl rfl rfl

end ContractNet
